import Mathlib

/-
  Verification development for the BrowserDataAnalyzer repository
  (source files: WBD.py and WindowsBrowserData.py).

  The two Python scripts extract Chromium-family browser artifacts
  (history, cookies, bookmarks), convert Chromium-epoch timestamps to
  calendar strings, and merge per-browser tables.  This file gives a
  shallow embedding of both scripts over an abstract filesystem and
  database world, together with models of the library behaviour the
  scripts rely on (CPython datetime, the sqlite3 module, and the parts
  of pandas they call), and proves or refutes the specification claims
  about them.

  Library modelling notes, used throughout:
  * CPython datetime: dates are proleptic Gregorian, limited to years
    1..9999; datetime(1601,1,1) + timedelta(microseconds=t) raises
    OverflowError when the result leaves that range, and OverflowError
    is not a ValueError.  The ordinal/calendar conversion below mirrors
    the _ymd2ord and _ord2ymd helpers of CPython Lib/datetime.py.
  * strftime with the format used by the scripts zero-pads the year to
    four digits (the scripts target Windows) and truncates sub-second
    data.
  * pandas.read_sql_query re-raises any exception coming from the
    DB-API cursor as pandas.errors.DatabaseError, which subclasses
    OSError and NOT sqlite3.Error (pandas io/sql).
  * pandas.read_json wraps the top level of the document; key access
    and membership behave as nested key lookup for well-formed bookmark
    documents, modelled here as plain JSON object lookup.
-/

/-- The Python exception classes relevant to the scripts.  Each
constructor is a distinct class; none is a subclass of another among
those modelled, except as encoded by the catch predicates below. -/
inductive PyExc where
  | valueError
  | overflowError
  | keyError
  | typeError
  | osError
  | sqlite3Error
  | pandasDatabaseError
deriving DecidableEq, Repr

/-- The predicate of the clause `except sqlite3.Error`: of the modelled
classes only sqlite3Error (standing for sqlite3.Error and its own
subclasses) is caught.  pandas.errors.DatabaseError subclasses OSError,
so it is NOT caught by this clause. -/
def catchesSqlite3Error (e : PyExc) : Bool :=
  e == PyExc.sqlite3Error

/-- A dynamic cell value as it occurs in the DataFrames of the scripts:
an integer (sqlite INTEGER), a string, or the NaN filler pandas uses for
missing data.  int() raises ValueError on NaN, so conversion passes NaN
through unchanged. -/
inductive Value where
  | int (n : Int)
  | str (s : String)
  | nan
deriving DecidableEq, Repr

/-- A pandas DataFrame as used by the scripts: an ordered column schema
and a list of rows, each row positionally aligned with the columns. -/
structure Table where
  cols : List String
  rows : List (List Value)
deriving DecidableEq, Repr

/-- pandas.DataFrame(): the no-column, no-row frame the scripts return
on every failure path. -/
def emptyTable : Table := ⟨[], []⟩

/- ===================================================================
   Model of Python int() on strings.
   int(s) strips surrounding whitespace, accepts an optional sign and a
   nonempty digit run, and raises ValueError otherwise.  (Underscore
   digit separators and non-ASCII digits exist in Python but never occur
   in the browser data and are not modelled.)
   =================================================================== -/

def isPySpace (c : Char) : Bool :=
  c == ' ' || c == '\t' || c == '\n' || c == '\r'

def isDig (c : Char) : Bool :=
  48 ≤ c.toNat && c.toNat ≤ 57

def digVal (c : Char) : Nat := c.toNat - 48

/-- Value of a nonempty all-digit run, none otherwise. -/
def digitsVal? (cs : List Char) : Option Nat :=
  if !cs.isEmpty && cs.all isDig then
    some (cs.foldl (fun a c => a * 10 + digVal c) 0)
  else none

/-- Drop trailing characters satisfying p. -/
def dropTrailing (p : Char → Bool) (l : List Char) : List Char :=
  (l.reverse.dropWhile p).reverse

/-- Sign handling of int(): an optional leading sign followed by a
digit run. -/
def pyIntOfStripped : List Char → Option Int
  | [] => none
  | c :: rest =>
    if c = '-' then (digitsVal? rest).map (fun n => -(n : Int))
    else if c = '+' then (digitsVal? rest).map (fun n => (n : Int))
    else (digitsVal? (c :: rest)).map (fun n => (n : Int))

/-- Python int() applied to a string: strip surrounding whitespace, then
read an optionally signed digit run. -/
def pyStrToInt (s : String) : Option Int :=
  pyIntOfStripped (dropTrailing isPySpace (s.data.dropWhile isPySpace))

/-- Python int() applied to a cell value.  int of an int is itself; int
of NaN raises ValueError (modelled as none, the caught case). -/
def pyToInt : Value → Option Int
  | .int n => some n
  | .str s => pyStrToInt s
  | .nan => none

/- ===================================================================
   Model of CPython datetime: proleptic Gregorian calendar, ordinals
   counted from 0001-01-01 = day 1, mirroring Lib/datetime.py.
   =================================================================== -/

def isLeapYear (y : Nat) : Bool :=
  y % 4 == 0 && (y % 100 != 0 || y % 400 == 0)

/-- Cumulative days before month m (1-based) in a non-leap year,
CPython _DAYS_BEFORE_MONTH. -/
def daysBeforeMonthBase (m : Nat) : Nat :=
  match m with
  | 1 => 0
  | 2 => 31
  | 3 => 59
  | 4 => 90
  | 5 => 120
  | 6 => 151
  | 7 => 181
  | 8 => 212
  | 9 => 243
  | 10 => 273
  | 11 => 304
  | 12 => 334
  | _ => 365

/-- Cumulative days before month m, with the leap-day adjustment for
months after February. -/
def daysBeforeMonth (leap : Bool) (m : Nat) : Nat :=
  daysBeforeMonthBase m + (if 2 < m && leap then 1 else 0)

/-- Days in the years before year y (y ≥ 1), CPython _days_before_year. -/
def daysBeforeYear (y : Nat) : Nat :=
  (y - 1) * 365 + (y - 1) / 4 - (y - 1) / 100 + (y - 1) / 400

/-- CPython _ymd2ord: proleptic Gregorian ordinal of (y, m, d). -/
def ymd2ord (y m d : Nat) : Nat :=
  daysBeforeYear y + daysBeforeMonth (isLeapYear y) m + d

/-- CPython _ord2ymd month estimate with fix-up: from a 0-based day of
year, the month it falls in. -/
def monthFix (leap : Bool) (n0 : Nat) : Nat :=
  if n0 < daysBeforeMonth leap ((n0 + 50) / 32) then (n0 + 50) / 32 - 1
  else (n0 + 50) / 32

/-- The 0-based day of year of the 0-based ordinal n, after the divmod
cascade of CPython _ord2ymd (n400 / n100 / n4 / n1 decomposition). -/
def oDoy (n : Nat) : Nat :=
  n % 146097 % 36524 % 1461 % 365

/-- Year of the 0-based ordinal n per the same cascade (before the
end-of-cycle fix-up of _ord2ymd). -/
def oYear (n : Nat) : Nat :=
  400 * (n / 146097) + 100 * (n % 146097 / 36524) +
    4 * (n % 146097 % 36524 / 1461) + n % 146097 % 36524 % 1461 / 365 + 1

/-- CPython _ord2ymd: calendar date of the 1-based ordinal nn.  The
special branch is taken on the last day of a 4-year or 400-year cycle
(n1 == 4 or n100 == 4 in CPython), which is December 31 of the previous
year of the cascade. -/
def ord2ymd (nn : Nat) : Nat × Nat × Nat :=
  let n := nn - 1
  if n % 146097 % 36524 % 1461 / 365 = 4 ∨ n % 146097 / 36524 = 4 then
    (oYear n - 1, 12, 31)
  else
    (oYear n, monthFix (isLeapYear (oYear n)) (oDoy n),
      oDoy n - daysBeforeMonth (isLeapYear (oYear n)) (monthFix (isLeapYear (oYear n)) (oDoy n)) + 1)

/-- Microseconds from 0001-01-01T00:00:00 to the Chromium epoch
1601-01-01T00:00:00: 584388 days. -/
def chromiumEpochMicro : Int := 50491123200000000

/-- The last microsecond representable by datetime:
9999-12-31T23:59:59.999999, i.e. 3652059 * 86400 * 10^6 - 1
microseconds from 0001-01-01T00:00:00. -/
def datetimeMaxMicro : Int := 315537897599999999

/-- Calendar components (y, m, d, hour, minute, second) of a microsecond
count from 0001-01-01T00:00:00; sub-second data is truncated. -/
def toYmdhms (tot : Nat) : Nat × Nat × Nat × Nat × Nat × Nat :=
  let sec := tot / 1000000
  let ymd := ord2ymd (sec / 86400 + 1)
  (ymd.1, ymd.2.1, ymd.2.2, sec % 86400 / 3600, sec % 86400 % 3600 / 60, sec % 86400 % 60)

/-- The decimal digit character for x mod 10. -/
def dg (x : Nat) : Char := Char.ofNat (48 + x % 10)

/-- strftime with format string percent-Y dash percent-m dash percent-d
space percent-H colon percent-M colon percent-S: every field zero-padded,
the year to four digits (Windows CPython behaviour; all reachable years
are 1..9999 anyway). -/
def renderDT (y m d h mi s : Nat) : String :=
  ⟨[dg (y / 1000), dg (y / 100), dg (y / 10), dg y, '-',
    dg (m / 10), dg m, '-', dg (d / 10), dg d, ' ',
    dg (h / 10), dg h, ':', dg (mi / 10), dg mi, ':', dg (s / 10), dg s]⟩

/-- The calendar string of a microsecond count from 0001-01-01. -/
def formatMicro (tot : Nat) : String :=
  let c := toYmdhms tot
  renderDT c.1 c.2.1 c.2.2.1 c.2.2.2.1 c.2.2.2.2.1 c.2.2.2.2.2

/-- Specification-side re-parse of a calendar string: reads the fixed
19-character layout back into components and recomputes the offset in
seconds from the Chromium epoch 1601-01-01T00:00:00 (whose ordinal is
584389). -/
def parseCal (s : String) : Option Int :=
  match s.data with
  | [y3, y2, y1, y0, c1, m1, m0, c2, d1, d0, c3, h1, h0, c4, i1, i0, c5, s1, s0] =>
    if (c1 == '-') && (c2 == '-') && (c3 == ' ') && (c4 == ':') && (c5 == ':') &&
        [y3, y2, y1, y0, m1, m0, d1, d0, h1, h0, i1, i0, s1, s0].all isDig then
      let y := 1000 * digVal y3 + 100 * digVal y2 + 10 * digVal y1 + digVal y0
      let m := 10 * digVal m1 + digVal m0
      let d := 10 * digVal d1 + digVal d0
      let h := 10 * digVal h1 + digVal h0
      let mi := 10 * digVal i1 + digVal i0
      let sec := 10 * digVal s1 + digVal s0
      some ((((ymd2ord y m d : Nat) : Int) - 584389) * 86400 + ((3600 * h + 60 * mi + sec : Nat) : Int))
    else none
  | _ => none

/- ===================================================================
   JSON document model for the Bookmarks file.
   pandas.read_json wraps the top level of the document in a DataFrame;
   for the well-formed bookmark documents the scripts target, key access
   and membership tests behave as nested key lookup, modelled as plain
   object lookup on this tree.  Nested objects below the flattening
   level would be expanded by json_normalize into dotted columns; no
   claim depends on them, so non-scalar cells are modelled as NaN.
   =================================================================== -/

inductive JVal where
  | jstr (s : String)
  | jnum (n : Int)
  | jobj (fields : List (String × JVal))
  | jarr (elems : List JVal)

/-- Key lookup on a JSON object; none on a missing key or a non-object. -/
def jget : JVal → String → Option JVal
  | .jobj fs, k => fs.lookup k
  | _, _ => none

/-- The path roots.bookmark_bar.children of a bookmarks document; none
as soon as any segment is missing. -/
def chainChildren (doc : JVal) : Option JVal :=
  (jget doc "roots").bind fun r =>
    (jget r "bookmark_bar").bind fun bb => jget bb "children"

def isJObj : JVal → Bool
  | .jobj _ => true
  | _ => false

def jKeys : JVal → List String
  | .jobj fs => fs.map (fun f => f.1)
  | _ => []

/-- Scalar cell value of a JSON leaf; nested structure is not flattened
here (see the model note above). -/
def jcell : JVal → Value
  | .jstr s => .str s
  | .jnum n => .int n
  | _ => .nan

def jfield (e : JVal) (k : String) : Value :=
  match e with
  | .jobj fs =>
    match fs.lookup k with
    | some v => jcell v
    | none => .nan
  | _ => .nan

/-- Union of the keys of a list of JSON objects, in order of first
appearance: the column set pandas.json_normalize produces. -/
def unionKeys (es : List JVal) : List String :=
  es.foldl (fun acc e => acc ++ (jKeys e).filter (fun k => !(acc.contains k))) []

/-- pandas.json_normalize on the children array: one row per element,
columns the union of keys, NaN for missing fields.  A non-array
argument or non-object elements make pandas fail (modelled as a
TypeError, which the callers catch). -/
def normalizeChildren (v : JVal) : Except PyExc Table :=
  match v with
  | .jarr es =>
    if es.all isJObj then
      .ok ⟨unionKeys es, es.map (fun e => (unionKeys es).map (jfield e))⟩
    else .error .typeError
  | _ => .error .typeError

/- ===================================================================
   DataFrame operations used by the scripts.
   =================================================================== -/

/-- The value of column c in a row, walking the schema and the row in
lockstep; NaN when the row is exhausted or the column is absent. -/
def cellAt : List String → List Value → String → Value
  | [], _, _ => .nan
  | c0 :: cs, [], c => if c0 = c then .nan else cellAt cs [] c
  | c0 :: cs, v :: vs, c => if c0 = c then v else cellAt cs vs c

/-- Rebuild a row under a new schema, reading each new column from the
old row (pandas column selection / reindexing). -/
def reindexRow (cols : List String) (new : List String) (row : List Value) : List Value :=
  new.map (cellAt cols row)

/-- df[[c1, ..., ck]]: column selection; raises KeyError when any
requested column is absent. -/
def selectCols (t : Table) (cs : List String) : Except PyExc Table :=
  if cs.all (fun c => t.cols.contains c) then
    .ok ⟨cs, t.rows.map (reindexRow t.cols cs)⟩
  else .error .keyError

/-- Sequencing of a fallible function over a list (the row-wise effect
of Series.apply, where the applied function may raise). -/
def mapMExc (f : α → Except PyExc β) : List α → Except PyExc (List β)
  | [] => .ok []
  | x :: xs =>
    match f x with
    | .error e => .error e
    | .ok y =>
      match mapMExc f xs with
      | .error e => .error e
      | .ok ys => .ok (y :: ys)

/-- Apply f to the cell of the first column named c in a row; cells of
other columns are untouched, and a row already exhausted is returned
unchanged. -/
def convRow (f : Value → Except PyExc Value) (c : String) :
    List String → List Value → Except PyExc (List Value)
  | c0 :: cs, v :: vs =>
    if c0 = c then
      match f v with
      | .error e => .error e
      | .ok w => .ok (w :: vs)
    else
      match convRow f c cs vs with
      | .error e => .error e
      | .ok ws => .ok (v :: ws)
  | _, r => .ok r

/-- df[c] = df[c].apply(f) for each listed column in order: raises
KeyError when a listed column is absent, otherwise rewrites the column
cell-wise, propagating any exception f raises. -/
def applyConvertCols (f : Value → Except PyExc Value) :
    List String → Table → Except PyExc Table
  | [], t => .ok t
  | c :: rest, t =>
    if c ∈ t.cols then
      match mapMExc (convRow f c t.cols) t.rows with
      | .error e => .error e
      | .ok rows => applyConvertCols f rest ⟨t.cols, rows⟩
    else .error .keyError

/-- Replace the cell of the first column named c (pandas assign on an
existing column). -/
def setAtCol (c : String) (v : Value) : List String → List Value → List Value
  | c0 :: cs, x :: xs => if c0 = c then v :: xs else x :: setAtCol c v cs xs
  | _, r => r

/-- df.assign(browser=tag): appends a constant column, or overwrites it
in place when a column of that name already exists. -/
def assignCol (t : Table) (c : String) (v : Value) : Table :=
  if c ∈ t.cols then ⟨t.cols, t.rows.map (setAtCol c v t.cols)⟩
  else ⟨t.cols ++ [c], t.rows.map (fun r => r ++ [v])⟩

/-- pandas.concat of two frames: with identical schemas the rows are
appended in order; otherwise the schemas are unioned and missing cells
filled with NaN. -/
def concatT (a b : Table) : Table :=
  if b.cols = a.cols then ⟨a.cols, a.rows ++ b.rows⟩
  else
    ⟨a.cols ++ b.cols.filter (fun c => !(a.cols.contains c)),
      a.rows.map (reindexRow a.cols (a.cols ++ b.cols.filter (fun c => !(a.cols.contains c)))) ++
        b.rows.map (reindexRow b.cols (a.cols ++ b.cols.filter (fun c => !(a.cols.contains c))))⟩

/-- The merge step of the scripts:
pandas.concat([a.assign(browser=tagA), b.assign(browser=tagB)]). -/
def combineTagged (a : Table) (tagA : String) (b : Table) (tagB : String) : Table :=
  concatT (assignCol a "browser" (.str tagA)) (assignCol b "browser" (.str tagB))

/- ===================================================================
   Abstract filesystem / database world.
   =================================================================== -/

/-- What the world does at one sqlite store path: whether the path
exists, whether shutil.copyfile of it raises, whether sqlite3.connect on
the fresh copy raises, and what executing the fixed query cursor on the
copy yields (rows, or the exception the DB-API cursor raises, e.g.
sqlite3.OperationalError on a zero-byte copy with no such table). -/
structure SqlStore where
  pathExists : Bool
  copyExc : Option PyExc
  connectExc : Option PyExc
  cursorRows : Except PyExc (List (List Value))

/-- What the world holds at one Bookmarks path: whether it exists and,
when opened and fed to pandas.read_json, the parsed document or the
exception raised. -/
structure BookmarksFile where
  pathExists : Bool
  content : Except PyExc JVal

/-- pandas.read_sql_query: materializes the cursor rows into a frame
whose columns are the projection of the query; any exception raised by
the cursor is re-raised as pandas.errors.DatabaseError, which subclasses
OSError and not sqlite3.Error (pandas io/sql, pandas/errors). -/
def read_sql_query (qcols : List String) (raw : Except PyExc (List (List Value))) :
    Except PyExc Table :=
  match raw with
  | .ok rows => .ok ⟨qcols, rows⟩
  | .error _ => .error .pandasDatabaseError

/-- Filesystem and database events, for the frame/effect claims. -/
inductive Event where
  | copyEv (src : String) (dst : String)
  | connectEv (path : String)
  | queryEv (path : String)
deriving DecidableEq, Repr

/-- The queries of the scripts, modelled by their projections. -/
def historyCols : List String := ["url", "title", "visit_count", "last_visit_time"]

def cookieCols : List String :=
  ["host_key", "name", "value", "creation_utc", "expires_utc", "last_access_utc"]

def timestamp_history : List String := ["last_visit_time"]

def timestamp_cookies : List String := ["creation_utc", "expires_utc", "last_access_utc"]

def timestamp_bookmarks : List String := ["date_added"]

def bookmarkCols : List String := ["name", "type", "url", "date_added"]

/-- The per-run world: one store per sqlite artifact and one bookmarks
document per browser. -/
structure FS where
  chromeHistory : SqlStore
  edgeHistory : SqlStore
  chromeCookies : SqlStore
  edgeCookies : SqlStore
  chromeBookmarks : BookmarksFile
  edgeBookmarks : BookmarksFile

/-- The nine tables a completed run hands to the CSV writer. -/
structure RunResult where
  chrome_history : Table
  edge_history : Table
  chrome_cookies : Table
  edge_cookies : Table
  chrome_bookmarks : Table
  edge_bookmarks : Table
  combined_history : Table
  combined_cookies : Table
  combined_bookmarks : Table

def chrome_path (user : String) : String :=
  user ++ "\\AppData\\Local\\Google\\Chrome\\User Data\\Default"

def edge_path (user : String) : String :=
  user ++ "\\AppData\\Local\\Microsoft\\Edge\\User Data\\Default"

/- ===================================================================
   WBD.py
   =================================================================== -/

namespace WBD

/-- WBD.py convert_timestamp: int(timestamp), then
datetime(1601,1,1) + timedelta(microseconds=...) formatted with
strftime.  Only ValueError is caught (the parse failure); the
OverflowError datetime raises on an out-of-range result propagates. -/
def convert_timestamp (timestamp : Value) : Except PyExc Value :=
  match pyToInt timestamp with
  | none => .ok timestamp
  | some t =>
    if 0 ≤ chromiumEpochMicro + t ∧ chromiumEpochMicro + t ≤ datetimeMaxMicro then
      .ok (.str (formatMicro (chromiumEpochMicro + t).toNat))
    else .error .overflowError

/-- WBD.py extract_history_cookies, instrumented with the event trace of
its filesystem and database operations.  Control flow of the source: an
existence check with early empty return; then a try block that copies
the store to path + ".backup", connects sqlite3 to the backup, runs
pandas.read_sql_query, and applies convert_timestamp to the listed
columns; an except clause catching only sqlite3.Error returns the empty
frame. -/
def extract_history_cookiesT (st : SqlStore) (browser_path : String)
    (qcols columns_to_convert : List String) : Except PyExc Table × List Event :=
  if st.pathExists = false then (.ok emptyTable, [])
  else
    let backup := browser_path ++ ".backup"
    let traced : Except PyExc Table × List Event :=
      match st.copyExc with
      | some e => (.error e, [])
      | none =>
        match st.connectExc with
        | some e => (.error e, [.copyEv browser_path backup, .connectEv backup])
        | none =>
          match read_sql_query qcols st.cursorRows with
          | .error e =>
            (.error e, [.copyEv browser_path backup, .connectEv backup, .queryEv backup])
          | .ok df =>
            (applyConvertCols convert_timestamp columns_to_convert df,
              [.copyEv browser_path backup, .connectEv backup, .queryEv backup])
    (match traced.1 with
      | .ok t => .ok t
      | .error e => if catchesSqlite3Error e then .ok emptyTable else .error e,
      traced.2)

/-- WBD.py extract_history_cookies (result component of the traced
model). -/
def extract_history_cookies (st : SqlStore) (browser_path : String)
    (qcols columns_to_convert : List String) : Except PyExc Table :=
  (extract_history_cookiesT st browser_path qcols columns_to_convert).1

/-- The try-block body of WBD.py extract_bookmarks: parse the document,
test each segment of roots.bookmark_bar.children (returning the empty
frame when one is missing), normalize the children, convert date_added
when that column exists, and select the four bookmark columns. -/
def extract_bookmarks_body (bf : BookmarksFile) : Except PyExc Table :=
  match bf.content with
  | .error e => .error e
  | .ok doc =>
    match jget doc "roots" with
    | none => .ok emptyTable
    | some r =>
      match jget r "bookmark_bar" with
      | none => .ok emptyTable
      | some bb =>
        match jget bb "children" with
        | none => .ok emptyTable
        | some ch =>
          match normalizeChildren ch with
          | .error e => .error e
          | .ok t0 =>
            match
              (if "date_added" ∈ t0.cols then
                applyConvertCols convert_timestamp ["date_added"] t0
              else .ok t0) with
            | .error e => .error e
            | .ok t1 => selectCols t1 bookmarkCols

/-- WBD.py extract_bookmarks: existence check with early empty return,
then the try block above under an except Exception clause that returns
the empty frame. -/
def extract_bookmarks (bf : BookmarksFile) : Except PyExc Table :=
  if bf.pathExists = false then .ok emptyTable
  else
    match extract_bookmarks_body bf with
    | .ok t => .ok t
    | .error _ => .ok emptyTable

/-- The module level of WBD.py: the six extractions, then the three
merges.  Writing the CSVs is the external writer collaborator and is
not modelled.  An uncaught exception in any step aborts the script. -/
def run (user : String) (fs : FS) : Except PyExc RunResult :=
  match extract_history_cookies fs.chromeHistory (chrome_path user ++ "\\History")
      historyCols timestamp_history with
  | .error e => .error e
  | .ok chrome_history =>
    match extract_history_cookies fs.edgeHistory (edge_path user ++ "\\History")
        historyCols timestamp_history with
    | .error e => .error e
    | .ok edge_history =>
      match extract_history_cookies fs.chromeCookies
          (chrome_path user ++ "\\Network\\Cookies") cookieCols timestamp_cookies with
      | .error e => .error e
      | .ok chrome_cookies =>
        match extract_history_cookies fs.edgeCookies
            (edge_path user ++ "\\Network\\Cookies") cookieCols timestamp_cookies with
        | .error e => .error e
        | .ok edge_cookies =>
          match extract_bookmarks fs.chromeBookmarks with
          | .error e => .error e
          | .ok chrome_bookmarks =>
            match extract_bookmarks fs.edgeBookmarks with
            | .error e => .error e
            | .ok edge_bookmarks =>
              .ok ⟨chrome_history, edge_history, chrome_cookies, edge_cookies,
                chrome_bookmarks, edge_bookmarks,
                combineTagged chrome_history "Chrome" edge_history "Edge",
                combineTagged chrome_cookies "Chrome" edge_cookies "Edge",
                combineTagged chrome_bookmarks "Chrome" edge_bookmarks "Edge"⟩

end WBD

/- ===================================================================
   WindowsBrowserData.py
   =================================================================== -/

namespace WinBD

/-- WindowsBrowserData.py convert_timestamp: identical to the WBD.py
function (only comments differ in the source). -/
def convert_timestamp (timestamp : Value) : Except PyExc Value :=
  match pyToInt timestamp with
  | none => .ok timestamp
  | some t =>
    if 0 ≤ chromiumEpochMicro + t ∧ chromiumEpochMicro + t ≤ datetimeMaxMicro then
      .ok (.str (formatMicro (chromiumEpochMicro + t).toNat))
    else .error .overflowError

/-- WindowsBrowserData.py extract_history_cookies, traced; the control
flow is the same as in WBD.py. -/
def extract_history_cookiesT (st : SqlStore) (browser_data_path : String)
    (qcols columns_to_convert : List String) : Except PyExc Table × List Event :=
  if st.pathExists = false then (.ok emptyTable, [])
  else
    let backup := browser_data_path ++ ".backup"
    let traced : Except PyExc Table × List Event :=
      match st.copyExc with
      | some e => (.error e, [])
      | none =>
        match st.connectExc with
        | some e => (.error e, [.copyEv browser_data_path backup, .connectEv backup])
        | none =>
          match read_sql_query qcols st.cursorRows with
          | .error e =>
            (.error e, [.copyEv browser_data_path backup, .connectEv backup, .queryEv backup])
          | .ok df =>
            (applyConvertCols convert_timestamp columns_to_convert df,
              [.copyEv browser_data_path backup, .connectEv backup, .queryEv backup])
    (match traced.1 with
      | .ok t => .ok t
      | .error e => if catchesSqlite3Error e then .ok emptyTable else .error e,
      traced.2)

/-- WindowsBrowserData.py extract_history_cookies. -/
def extract_history_cookies (st : SqlStore) (browser_data_path : String)
    (qcols columns_to_convert : List String) : Except PyExc Table :=
  (extract_history_cookiesT st browser_data_path qcols columns_to_convert).1

/-- WindowsBrowserData.py extract_bookmarks: a missing file only prints
a message and execution continues into the try block, where open()
raises FileNotFoundError (an OSError); the roots / bookmark_bar /
children accesses raise KeyError when a segment is missing; no
timestamp conversion happens here; except Exception returns the empty
frame, so this function never raises. -/
def extract_bookmarks_body (bf : BookmarksFile) : Except PyExc Table :=
  match (if bf.pathExists = false then .error PyExc.osError else bf.content) with
  | .error e => .error e
  | .ok doc =>
    match jget doc "roots" with
    | none => .error .keyError
    | some r =>
      match jget r "bookmark_bar" with
      | none => .error .keyError
      | some bb =>
        match jget bb "children" with
        | none => .error .keyError
        | some ch =>
          match normalizeChildren ch with
          | .error e => .error e
          | .ok t0 => selectCols t0 bookmarkCols

def extract_bookmarks (bf : BookmarksFile) : Except PyExc Table :=
  match extract_bookmarks_body bf with
  | .ok t => .ok t
  | .error _ => .ok emptyTable

/-- The bookmarks pipeline of WindowsBrowserData.py module level: the
extraction followed by the module-level statement
bookmarks["date_added"] = bookmarks["date_added"].apply(convert_timestamp),
which raises KeyError when the extraction degraded to the empty frame. -/
def bookmarksStep (bf : BookmarksFile) : Except PyExc Table :=
  match extract_bookmarks bf with
  | .error e => .error e
  | .ok t => applyConvertCols convert_timestamp ["date_added"] t

/-- The module level of WindowsBrowserData.py: as WBD.py, except that
the date_added conversion of each bookmarks table happens at module
level, after the corresponding extraction. -/
def run (user : String) (fs : FS) : Except PyExc RunResult :=
  match extract_history_cookies fs.chromeHistory (chrome_path user ++ "\\History")
      historyCols timestamp_history with
  | .error e => .error e
  | .ok chrome_history =>
    match extract_history_cookies fs.edgeHistory (edge_path user ++ "\\History")
        historyCols timestamp_history with
    | .error e => .error e
    | .ok edge_history =>
      match extract_history_cookies fs.chromeCookies
          (chrome_path user ++ "\\Network\\Cookies") cookieCols timestamp_cookies with
      | .error e => .error e
      | .ok chrome_cookies =>
        match extract_history_cookies fs.edgeCookies
            (edge_path user ++ "\\Network\\Cookies") cookieCols timestamp_cookies with
        | .error e => .error e
        | .ok edge_cookies =>
          match bookmarksStep fs.chromeBookmarks with
          | .error e => .error e
          | .ok chrome_bookmarks =>
            match bookmarksStep fs.edgeBookmarks with
            | .error e => .error e
            | .ok edge_bookmarks =>
              .ok ⟨chrome_history, edge_history, chrome_cookies, edge_cookies,
                chrome_bookmarks, edge_bookmarks,
                combineTagged chrome_history "Chrome" edge_history "Edge",
                combineTagged chrome_cookies "Chrome" edge_cookies "Edge",
                combineTagged chrome_bookmarks "Chrome" edge_bookmarks "Edge"⟩

end WinBD

/- ===================================================================
   Theorems.  First: correctness of the calendar model.
   =================================================================== -/

theorem isLeapYear_iff (y : Nat) :
    isLeapYear y = true ↔ (y % 4 = 0 ∧ (y % 100 ≠ 0 ∨ y % 400 = 0)) := by
  simp [isLeapYear, Bool.and_eq_true, Bool.or_eq_true, beq_iff_eq, bne_iff_ne]

set_option maxRecDepth 4000

/-- The month estimate-and-fix of _ord2ymd is correct on every 0-based
day of a leap year. -/
theorem monthFix_leap : ∀ n0 : Nat, n0 < 366 →
    daysBeforeMonth true (monthFix true n0) ≤ n0 ∧
    1 ≤ monthFix true n0 ∧ monthFix true n0 ≤ 12 ∧
    n0 + 1 ≤ daysBeforeMonth true (monthFix true n0) + 31 ∧
    n0 < daysBeforeMonth true (monthFix true n0 + 1) := by
  decide

/-- The month estimate-and-fix of _ord2ymd is correct on every 0-based
day of a non-leap year. -/
theorem monthFix_noleap : ∀ n0 : Nat, n0 < 365 →
    daysBeforeMonth false (monthFix false n0) ≤ n0 ∧
    1 ≤ monthFix false n0 ∧ monthFix false n0 ≤ 12 ∧
    n0 + 1 ≤ daysBeforeMonth false (monthFix false n0) + 31 ∧
    n0 < daysBeforeMonth false (monthFix false n0 + 1) := by
  decide

/-- Division of a number presented as k * q + r with r < k. -/
theorem div_rep (N k q r : Nat) (hk : 0 < k) (hN : N = k * q + r) (hr : r < k) :
    N / k = q := by
  subst hN
  rw [Nat.add_comm, Nat.add_mul_div_left _ _ hk, Nat.div_eq_of_lt hr, Nat.zero_add]

/-- Remainder of a number presented as k * q + r with r < k. -/
theorem mod_rep (N k q r : Nat) (hN : N = k * q + r) (hr : r < k) :
    N % k = r := by
  subst hN
  rw [Nat.mul_add_mod, Nat.mod_eq_of_lt hr]

/-- Round trip and component bounds of the CPython ordinal/calendar
conversion, over the whole datetime range of ordinals
(1 = 0001-01-01 up to 3652059 = 9999-12-31). -/
theorem ord2ymd_spec (nn y m d : Nat) (h1 : 1 ≤ nn) (h2 : nn ≤ 3652059)
    (h : ord2ymd nn = (y, m, d)) :
    ymd2ord y m d = nn ∧ 1 ≤ y ∧ y ≤ 9999 ∧ 1 ≤ m ∧ m ≤ 12 ∧ 1 ≤ d ∧ d ≤ 31 := by
  obtain ⟨n, rfl⟩ : ∃ n, nn = n + 1 := ⟨nn - 1, by omega⟩
  simp only [ord2ymd, oYear, oDoy, Nat.add_sub_cancel] at h
  obtain ⟨a, r1, l1, rfl⟩ : ∃ a r1, r1 < 146097 ∧ n = 146097 * a + r1 :=
    ⟨n / 146097, n % 146097, Nat.mod_lt _ (by norm_num), (Nat.div_add_mod n 146097).symm⟩
  simp only [Nat.mul_add_div (show 0 < 146097 by norm_num), Nat.mul_add_mod,
    Nat.mod_eq_of_lt l1, Nat.div_eq_of_lt l1, Nat.add_zero] at h
  obtain ⟨b, r2, l2, rfl⟩ : ∃ b r2, r2 < 36524 ∧ r1 = 36524 * b + r2 :=
    ⟨r1 / 36524, r1 % 36524, Nat.mod_lt _ (by norm_num), (Nat.div_add_mod r1 36524).symm⟩
  simp only [Nat.mul_add_div (show 0 < 36524 by norm_num), Nat.mul_add_mod,
    Nat.mod_eq_of_lt l2, Nat.div_eq_of_lt l2, Nat.add_zero] at h
  obtain ⟨c, r3, l3, rfl⟩ : ∃ c r3, r3 < 1461 ∧ r2 = 1461 * c + r3 :=
    ⟨r2 / 1461, r2 % 1461, Nat.mod_lt _ (by norm_num), (Nat.div_add_mod r2 1461).symm⟩
  simp only [Nat.mul_add_div (show 0 < 1461 by norm_num), Nat.mul_add_mod,
    Nat.mod_eq_of_lt l3, Nat.div_eq_of_lt l3, Nat.add_zero] at h
  obtain ⟨d1, n0, l4, rfl⟩ : ∃ d1 n0, n0 < 365 ∧ r3 = 365 * d1 + n0 :=
    ⟨r3 / 365, r3 % 365, Nat.mod_lt _ (by norm_num), (Nat.div_add_mod r3 365).symm⟩
  simp only [Nat.mul_add_div (show 0 < 365 by norm_num), Nat.mul_add_mod,
    Nat.mod_eq_of_lt l4, Nat.div_eq_of_lt l4, Nat.add_zero] at h
  split at h
  · rename_i hsp
    rw [Prod.mk.injEq, Prod.mk.injEq] at h
    obtain ⟨hy, hm, hd⟩ := h
    subst hy; subst hm; subst hd
    unfold ymd2ord daysBeforeYear
    rcases hsp with h4 | h4
    · -- last day of a 4-year cycle: December 31 of a leap year
      have hc23 : c ≤ 23 := by omega
      have hb3 : b ≤ 3 := by omega
      have hleap : isLeapYear (400 * a + 100 * b + 4 * c + d1) = true := by
        rw [isLeapYear_iff]
        refine ⟨mod_rep _ 4 (100 * a + 25 * b + c + 1) 0 (by omega) (by omega), Or.inl ?_⟩
        rw [mod_rep (400 * a + 100 * b + 4 * c + d1) 100 (4 * a + b) (4 * c + 4)
          (by omega) (by omega)]
        omega
      rw [hleap, show daysBeforeMonth true 12 = 335 from rfl,
        div_rep (400 * a + 100 * b + 4 * c + d1 - 1) 4 (100 * a + 25 * b + c) 3
          (by norm_num) (by omega) (by omega),
        div_rep (400 * a + 100 * b + 4 * c + d1 - 1) 100 (4 * a + b) (4 * c + 3)
          (by norm_num) (by omega) (by omega),
        div_rep (400 * a + 100 * b + 4 * c + d1 - 1) 400 a (100 * b + 4 * c + 3)
          (by norm_num) (by omega) (by omega)]
      exact ⟨by omega, by omega, by omega, by omega, by omega, by omega, by omega⟩
    · -- last day of a 400-year cycle: December 31 of a leap century
      have hc0 : c = 0 := by omega
      have hd0 : d1 = 0 := by omega
      have hleap : isLeapYear (400 * a + 100 * b + 4 * c + d1) = true := by
        rw [isLeapYear_iff]
        exact ⟨mod_rep _ 4 (100 * a + 100) 0 (by omega) (by omega),
          Or.inr (mod_rep _ 400 (a + 1) 0 (by omega) (by omega))⟩
      rw [hleap, show daysBeforeMonth true 12 = 335 from rfl,
        div_rep (400 * a + 100 * b + 4 * c + d1 - 1) 4 (100 * a + 99) 3
          (by norm_num) (by omega) (by omega),
        div_rep (400 * a + 100 * b + 4 * c + d1 - 1) 100 (4 * a + 3) 99
          (by norm_num) (by omega) (by omega),
        div_rep (400 * a + 100 * b + 4 * c + d1 - 1) 400 a 399
          (by norm_num) (by omega) (by omega)]
      exact ⟨by omega, by omega, by omega, by omega, by omega, by omega, by omega⟩
  · rename_i hsp
    rw [not_or] at hsp
    rw [Prod.mk.injEq, Prod.mk.injEq] at h
    obtain ⟨hy, hm, hd⟩ := h
    subst hy; subst hm; subst hd
    unfold ymd2ord daysBeforeYear
    simp only [Nat.add_sub_cancel]
    have hd13 : d1 ≤ 3 := by omega
    have hb3 : b ≤ 3 := by omega
    have hc24 : c ≤ 24 := by omega
    rw [div_rep (400 * a + 100 * b + 4 * c + d1) 4 (100 * a + 25 * b + c) d1
        (by norm_num) (by ring) (by omega),
      div_rep (400 * a + 100 * b + 4 * c + d1) 100 (4 * a + b) (4 * c + d1)
        (by norm_num) (by ring) (by omega),
      div_rep (400 * a + 100 * b + 4 * c + d1) 400 a (100 * b + 4 * c + d1)
        (by norm_num) (by ring) (by omega)]
    cases hL : isLeapYear (400 * a + 100 * b + 4 * c + d1 + 1) with
    | false =>
      obtain ⟨hf1, hf2, hf3, hf4, hf5⟩ := monthFix_noleap n0 l4
      exact ⟨by omega, by omega, by omega, by omega, by omega, by omega, by omega⟩
    | true =>
      obtain ⟨hf1, hf2, hf3, hf4, hf5⟩ := monthFix_leap n0 (Nat.lt_succ_of_lt l4)
      exact ⟨by omega, by omega, by omega, by omega, by omega, by omega, by omega⟩

theorem dg_isDig (x : Nat) : isDig (dg x) = true := by
  unfold dg
  have hb : x % 10 < 10 := Nat.mod_lt _ (by norm_num)
  generalize hg : x % 10 = j
  rw [hg] at hb
  interval_cases j <;> decide

theorem dg_digVal (x : Nat) : digVal (dg x) = x % 10 := by
  unfold dg digVal
  have hb : x % 10 < 10 := Nat.mod_lt _ (by norm_num)
  generalize hg : x % 10 = j
  rw [hg] at hb
  interval_cases j <;> decide

theorem dg_not_space (x : Nat) : isPySpace (dg x) = false := by
  unfold dg
  have hb : x % 10 < 10 := Nat.mod_lt _ (by norm_num)
  generalize hg : x % 10 = j
  rw [hg] at hb
  interval_cases j <;> decide

theorem dg_ne_minus (x : Nat) : dg x ≠ '-' := by
  unfold dg
  have hb : x % 10 < 10 := Nat.mod_lt _ (by norm_num)
  generalize hg : x % 10 = j
  rw [hg] at hb
  interval_cases j <;> decide

theorem dg_ne_plus (x : Nat) : dg x ≠ '+' := by
  unfold dg
  have hb : x % 10 < 10 := Nat.mod_lt _ (by norm_num)
  generalize hg : x % 10 = j
  rw [hg] at hb
  interval_cases j <;> decide

/-- Re-parsing a rendered calendar string recovers its components. -/
theorem parseCal_renderDT (y m d h mi s : Nat)
    (hy : y ≤ 9999) (hm : m ≤ 99) (hd : d ≤ 99) (hh : h ≤ 99) (hmi : mi ≤ 99) (hs : s ≤ 99) :
    parseCal (renderDT y m d h mi s) =
      some ((((ymd2ord y m d : Nat) : Int) - 584389) * 86400 +
        ((3600 * h + 60 * mi + s : Nat) : Int)) := by
  have hy' : 1000 * (y / 1000 % 10) + 100 * (y / 100 % 10) + 10 * (y / 10 % 10) + y % 10 = y := by
    omega
  have hm' : 10 * (m / 10 % 10) + m % 10 = m := by omega
  have hd' : 10 * (d / 10 % 10) + d % 10 = d := by omega
  have hh' : 10 * (h / 10 % 10) + h % 10 = h := by omega
  have hmi' : 10 * (mi / 10 % 10) + mi % 10 = mi := by omega
  have hs' : 10 * (s / 10 % 10) + s % 10 = s := by omega
  simp only [renderDT, parseCal, List.all_cons, List.all_nil, dg_isDig, dg_digVal,
    Bool.and_true, Bool.true_and, beq_self_eq_true, if_true]
  rw [hy', hm', hd', hh', hmi', hs']

/-- Re-parsing the rendered calendar string of any representable
microsecond count recovers its total seconds, expressed as an offset
from the Chromium epoch (50491123200 seconds from 0001-01-01). -/
theorem parse_format_micro (tot : Nat) (htot : tot ≤ 315537897599999999) :
    parseCal (formatMicro tot) = some (((tot / 1000000 : Nat) : Int) - 50491123200) := by
  obtain ⟨y, m, d, hymd⟩ : ∃ y m d, ord2ymd (tot / 1000000 / 86400 + 1) = (y, m, d) :=
    ⟨_, _, _, rfl⟩
  obtain ⟨hord, hy1, hy2, hm1, hm2, hd1, hd2⟩ :=
    ord2ymd_spec (tot / 1000000 / 86400 + 1) y m d (by omega) (by omega) hymd
  simp only [formatMicro, toYmdhms, hymd]
  rw [parseCal_renderDT y m d _ _ _ hy2 (by omega) (by omega) (by omega) (by omega) (by omega)]
  simp only [Option.some.injEq]
  rw [hord]
  omega

theorem dropTrailing_append_nonspace (p : Char → Bool) (l : List Char) (c : Char)
    (hc : p c = false) : dropTrailing p (l ++ [c]) = l ++ [c] := by
  unfold dropTrailing
  rw [List.reverse_append]
  simp [List.dropWhile_cons, hc]

/-- A rendered calendar string is not parseable by Python int(): it has
a dash in its interior, so the digit-run check fails. -/
theorem pyStrToInt_renderDT (y m d h mi s : Nat) :
    pyStrToInt (renderDT y m d h mi s) = none := by
  have hdig : isDig '-' = false := rfl
  have hmk : (renderDT y m d h mi s).data.dropWhile isPySpace =
      (renderDT y m d h mi s).data := by
    simp [renderDT, List.dropWhile_cons, dg_not_space]
  unfold pyStrToInt
  rw [hmk]
  have hsplit : (renderDT y m d h mi s).data =
      [dg (y / 1000), dg (y / 100), dg (y / 10), dg y, '-', dg (m / 10), dg m, '-',
        dg (d / 10), dg d, ' ', dg (h / 10), dg h, ':', dg (mi / 10), dg mi, ':',
        dg (s / 10)] ++ [dg s] := rfl
  rw [hsplit, dropTrailing_append_nonspace _ _ _ (dg_not_space s)]
  simp only [List.cons_append, List.nil_append, pyIntOfStripped,
    if_neg (dg_ne_minus (y / 1000)), if_neg (dg_ne_plus (y / 1000))]
  simp [digitsVal?, hdig]

/-- The two scripts define the same timestamp converter. -/
theorem convert_timestamp_eq : WinBD.convert_timestamp = WBD.convert_timestamp := rfl

/-- Successful conversion of an in-range integer timestamp. -/
theorem convert_timestamp_int_ok (t : Int)
    (h1 : 0 ≤ chromiumEpochMicro + t) (h2 : chromiumEpochMicro + t ≤ datetimeMaxMicro) :
    WBD.convert_timestamp (.int t) = .ok (.str (formatMicro (chromiumEpochMicro + t).toNat)) := by
  simp only [WBD.convert_timestamp, pyToInt]
  rw [if_pos ⟨h1, h2⟩]

/-- A converted value is a fixed point of the converter: the calendar
string is not integer-parseable, so a second application passes it
through unchanged. -/
theorem convert_timestamp_fix (v r : Value) (h : WBD.convert_timestamp v = .ok r) :
    WBD.convert_timestamp r = .ok r := by
  unfold WBD.convert_timestamp at h ⊢
  cases hv : pyToInt v with
  | none =>
    rw [hv] at h
    injection h with h'
    subst h'
    rw [hv]
  | some t =>
    simp only [hv] at h
    by_cases hc : 0 ≤ chromiumEpochMicro + t ∧ chromiumEpochMicro + t ≤ datetimeMaxMicro
    · rw [if_pos hc] at h
      injection h with h'
      subst h'
      have hn : pyToInt (.str (formatMicro (chromiumEpochMicro + t).toNat)) = none := by
        simp only [pyToInt, formatMicro]
        exact pyStrToInt_renderDT _ _ _ _ _ _
      rw [hn]
    · rw [if_neg hc] at h
      cases h

/-- Rewriting columns cell-wise never changes the schema. -/
theorem applyConvertCols_cols (f : Value → Except PyExc Value) (cs : List String)
    (t t' : Table) (h : applyConvertCols f cs t = .ok t') : t'.cols = t.cols := by
  induction cs generalizing t with
  | nil =>
    unfold applyConvertCols at h
    injection h with h'
    rw [← h']
  | cons c rest ih =>
    unfold applyConvertCols at h
    by_cases hm : c ∈ t.cols
    · rw [if_pos hm] at h
      cases hr : mapMExc (convRow f c t.cols) t.rows with
      | error e => simp only [hr] at h; cases h
      | ok rows => simp only [hr] at h; exact ih ⟨t.cols, rows⟩ h
    · rw [if_neg hm] at h
      cases h

/-- Column selection yields exactly the requested schema. -/
theorem selectCols_cols (t : Table) (cs : List String) (t' : Table)
    (h : selectCols t cs = .ok t') : t'.cols = cs := by
  unfold selectCols at h
  split at h
  · injection h with h'; rw [← h']
  · cases h

/-- Any table the relational reader returns either has the schema of
the query projection or is the no-column empty frame of a failure
path. -/
theorem extract_history_cookies_shape (st : SqlStore) (p : String)
    (qcols conv : List String) (t : Table)
    (h : WBD.extract_history_cookies st p qcols conv = .ok t) :
    t.cols = qcols ∨ t = emptyTable := by
  unfold WBD.extract_history_cookies WBD.extract_history_cookiesT at h
  split at h
  · injection h with h'
    exact .inr h'.symm
  · cases hc : st.copyExc with
    | some e =>
      simp only [hc] at h
      split at h
      · injection h with h'; exact .inr h'.symm
      · cases h
    | none =>
      cases hcn : st.connectExc with
      | some e =>
        simp only [hc, hcn] at h
        split at h
        · injection h with h'; exact .inr h'.symm
        · cases h
      | none =>
        cases hq : st.cursorRows with
        | error e =>
          simp only [hc, hcn, read_sql_query, hq] at h
          split at h
          · injection h with h'; exact .inr h'.symm
          · cases h
        | ok rows =>
          simp only [hc, hcn, read_sql_query, hq] at h
          cases ha : applyConvertCols WBD.convert_timestamp conv ⟨qcols, rows⟩ with
          | error e =>
            simp only [ha] at h
            split at h
            · injection h with h'; exact .inr h'.symm
            · cases h
          | ok t1 =>
            simp only [ha] at h
            injection h with h'
            subst h'
            exact .inl (applyConvertCols_cols _ _ _ _ ha)

/-- Any table the WBD.py bookmark reader returns either has the four
bookmark columns or is the no-column empty frame. -/
theorem extract_bookmarks_shape (bf : BookmarksFile) (t : Table)
    (h : WBD.extract_bookmarks bf = .ok t) :
    t.cols = bookmarkCols ∨ t = emptyTable := by
  unfold WBD.extract_bookmarks at h
  split at h
  · injection h with h'; exact .inr h'.symm
  · cases hb : WBD.extract_bookmarks_body bf with
    | error e => simp only [hb] at h; injection h with h'; exact .inr h'.symm
    | ok t0 =>
      simp only [hb] at h
      injection h with h'
      subst h'
      unfold WBD.extract_bookmarks_body at hb
      cases hct : bf.content with
      | error e => simp only [hct] at hb; cases hb
      | ok doc =>
        simp only [hct] at hb
        cases h1 : jget doc "roots" with
        | none => simp only [h1] at hb; injection hb with h'; exact .inr h'.symm
        | some r =>
          simp only [h1] at hb
          cases h2 : jget r "bookmark_bar" with
          | none => simp only [h2] at hb; injection hb with h'; exact .inr h'.symm
          | some bb =>
            simp only [h2] at hb
            cases h3 : jget bb "children" with
            | none => simp only [h3] at hb; injection hb with h'; exact .inr h'.symm
            | some ch =>
              simp only [h3] at hb
              cases h4 : normalizeChildren ch with
              | error e => simp only [h4] at hb; cases hb
              | ok t0' =>
                simp only [h4] at hb
                cases h5 : (if "date_added" ∈ t0'.cols then
                    applyConvertCols WBD.convert_timestamp ["date_added"] t0'
                  else .ok t0') with
                | error e => simp only [h5] at hb; cases hb
                | ok t1 =>
                  simp only [h5] at hb
                  exact .inl (selectCols_cols _ _ _ hb)

/-- The WBD.py bookmark reader never raises: every branch of its body
is caught by the except Exception clause. -/
theorem extract_bookmarks_total (bf : BookmarksFile) :
    ∃ t, WBD.extract_bookmarks bf = .ok t := by
  unfold WBD.extract_bookmarks
  split
  · exact ⟨emptyTable, rfl⟩
  · cases hb : WBD.extract_bookmarks_body bf with
    | error e => exact ⟨emptyTable, rfl⟩
    | ok t => exact ⟨t, rfl⟩

/-- The WindowsBrowserData.py bookmark reader never raises either. -/
theorem winbd_extract_bookmarks_total (bf : BookmarksFile) :
    ∃ t, WinBD.extract_bookmarks bf = .ok t := by
  unfold WinBD.extract_bookmarks
  cases hb : WinBD.extract_bookmarks_body bf with
  | error e => exact ⟨emptyTable, rfl⟩
  | ok t => exact ⟨t, rfl⟩

theorem cellAt_nil_row (cols : List String) (c : String) : cellAt cols [] c = .nan := by
  induction cols with
  | nil => rfl
  | cons c0 cs ih =>
    unfold cellAt
    split
    · rfl
    · exact ih

/-- Rewriting the cells of column c leaves every other column of a row
unchanged. -/
theorem convRow_cellAt_ne (f : Value → Except PyExc Value) (c c' : String) (hne : c' ≠ c) :
    ∀ (cols : List String) (row row' : List Value),
      convRow f c cols row = .ok row' → cellAt cols row' c' = cellAt cols row c' := by
  intro cols
  induction cols with
  | nil =>
    intro row row' h
    unfold convRow at h
    injection h with h'
    rw [h']
  | cons c0 cs ih =>
    intro row row' h
    cases row with
    | nil =>
      unfold convRow at h
      injection h with h'
      rw [h']
    | cons v vs =>
      unfold convRow at h
      by_cases hc0 : c0 = c
      · rw [if_pos hc0] at h
        cases hf : f v with
        | error e => simp only [hf] at h; cases h
        | ok w =>
          simp only [hf] at h
          injection h with h'
          subst h'
          unfold cellAt
          rw [if_neg (by rw [hc0]; exact fun he => hne he.symm),
            if_neg (by rw [hc0]; exact fun he => hne he.symm)]
      · rw [if_neg hc0] at h
        cases hrec : convRow f c cs vs with
        | error e => simp only [hrec] at h; cases h
        | ok ws =>
          simp only [hrec] at h
          injection h with h'
          subst h'
          unfold cellAt
          by_cases hc0' : c0 = c'
          · rw [if_pos hc0', if_pos hc0']
          · rw [if_neg hc0', if_neg hc0']
            exact ih vs ws hrec

/-- Rewriting the cells of column c maps its cell through f (with NaN
for an exhausted row, on which the converter is the identity). -/
theorem convRow_cellAt_eq (f : Value → Except PyExc Value) (c : String)
    (hf : f Value.nan = .ok Value.nan) :
    ∀ (cols : List String) (row row' : List Value),
      convRow f c cols row = .ok row' → f (cellAt cols row c) = .ok (cellAt cols row' c) := by
  intro cols
  induction cols with
  | nil =>
    intro row row' h
    unfold convRow at h
    obtain rfl : row = row' := by injection h
    exact hf
  | cons c0 cs ih =>
    intro row row' h
    cases row with
    | nil =>
      unfold convRow at h
      obtain rfl : ([] : List Value) = row' := by injection h
      rw [cellAt_nil_row]
      exact hf
    | cons v vs =>
      unfold convRow at h
      by_cases hc0 : c0 = c
      · rw [if_pos hc0] at h
        cases hfv : f v with
        | error e => simp only [hfv] at h; cases h
        | ok w =>
          simp only [hfv] at h
          injection h with h'
          subst h'
          unfold cellAt
          rw [if_pos hc0, if_pos hc0]
          exact hfv
      · rw [if_neg hc0] at h
        cases hrec : convRow f c cs vs with
        | error e => simp only [hrec] at h; cases h
        | ok ws =>
          simp only [hrec] at h
          injection h with h'
          subst h'
          unfold cellAt
          rw [if_neg hc0, if_neg hc0]
          exact ih vs ws hrec

/-- If f accepts the cell of column c, rewriting the column succeeds. -/
theorem convRow_ok_of_cell (f : Value → Except PyExc Value) (c : String) :
    ∀ (cols : List String) (row : List Value) (w : Value),
      f (cellAt cols row c) = .ok w → ∃ row', convRow f c cols row = .ok row' := by
  intro cols
  induction cols with
  | nil => intro row w _; exact ⟨row, rfl⟩
  | cons c0 cs ih =>
    intro row w hw
    cases row with
    | nil => exact ⟨[], rfl⟩
    | cons v vs =>
      unfold convRow
      by_cases hc0 : c0 = c
      · rw [if_pos hc0]
        unfold cellAt at hw
        rw [if_pos hc0] at hw
        rw [hw]
        exact ⟨w :: vs, rfl⟩
      · rw [if_neg hc0]
        unfold cellAt at hw
        rw [if_neg hc0] at hw
        obtain ⟨ws, hws⟩ := ih vs w hw
        rw [hws]
        exact ⟨v :: ws, rfl⟩

/-- Computing the column rewrite on a selected four-column bookmark row:
only the date_added cell goes through f. -/
theorem convRow_bookmark (f : Value → Except PyExc Value) (a b c d : Value) :
    convRow f "date_added" bookmarkCols [a, b, c, d] =
      match f d with
      | .error e => .error e
      | .ok w => .ok [a, b, c, w] := by
  cases hfd : f d <;>
    simp [convRow, bookmarkCols, hfd]

/-- Converting the date_added column after selecting the four bookmark
columns equals selecting after converting in the original schema. -/
theorem bookmarks_conv_commute (f : Value → Except PyExc Value)
    (hf : f Value.nan = .ok Value.nan) (cols0 : List String) :
    ∀ (rows rows1 : List (List Value)),
      mapMExc (convRow f "date_added" bookmarkCols)
        (rows.map (reindexRow cols0 bookmarkCols)) = .ok rows1 →
      ∃ rows0, mapMExc (convRow f "date_added" cols0) rows = .ok rows0 ∧
        rows0.map (reindexRow cols0 bookmarkCols) = rows1 := by
  intro rows
  induction rows with
  | nil =>
    intro rows1 h
    simp only [List.map_nil] at h
    unfold mapMExc at h
    injection h with h'
    exact ⟨[], rfl, by rw [List.map_nil, h']⟩
  | cons r rs ih =>
    intro rows1 h
    simp only [List.map_cons] at h
    unfold mapMExc at h
    rw [show reindexRow cols0 bookmarkCols r = [cellAt cols0 r "name", cellAt cols0 r "type",
        cellAt cols0 r "url", cellAt cols0 r "date_added"] from rfl] at h
    rw [convRow_bookmark] at h
    cases hfd : f (cellAt cols0 r "date_added") with
    | error e => simp only [hfd] at h; cases h
    | ok w =>
      simp only [hfd] at h
      cases hrest : mapMExc (convRow f "date_added" bookmarkCols)
          (rs.map (reindexRow cols0 bookmarkCols)) with
      | error e => simp only [hrest] at h; cases h
      | ok ys =>
        simp only [hrest] at h
        injection h with h'
        obtain ⟨rows0', hr0, hmap⟩ := ih ys hrest
        obtain ⟨r', hr'⟩ := convRow_ok_of_cell f "date_added" cols0 r w hfd
        refine ⟨r' :: rows0', ?_, ?_⟩
        · unfold mapMExc
          rw [hr', hr0]
        · rw [List.map_cons, hmap, ← h']
          congr 1
          rw [show reindexRow cols0 bookmarkCols r' = [cellAt cols0 r' "name",
              cellAt cols0 r' "type", cellAt cols0 r' "url",
              cellAt cols0 r' "date_added"] from rfl]
          have hda := convRow_cellAt_eq f "date_added" hf cols0 r r' hr'
          rw [hfd] at hda
          injection hda with hda'
          rw [convRow_cellAt_ne f "date_added" "name" (by decide) cols0 r r' hr',
            convRow_cellAt_ne f "date_added" "type" (by decide) cols0 r r' hr',
            convRow_cellAt_ne f "date_added" "url" (by decide) cols0 r r' hr', ← hda']

/-- When the module-level WindowsBrowserData.py bookmarks pipeline
(extraction followed by the date_added conversion) succeeds, the WBD.py
reader produces exactly the same table. -/
theorem bookmarksStep_to_wbd (bf : BookmarksFile) (t : Table)
    (h : WinBD.bookmarksStep bf = .ok t) : WBD.extract_bookmarks bf = .ok t := by
  unfold WinBD.bookmarksStep at h
  cases hE : WinBD.extract_bookmarks bf with
  | error e => rw [hE] at h; cases h
  | ok t0 =>
    rw [hE] at h
    rw [convert_timestamp_eq] at h
    unfold WinBD.extract_bookmarks at hE
    cases hb : WinBD.extract_bookmarks_body bf with
    | error e =>
      simp only [hb] at hE
      injection hE with hE'
      subst hE'
      unfold applyConvertCols at h
      rw [if_neg (show ¬ ("date_added" ∈ emptyTable.cols) from by simp [emptyTable])] at h
      cases h
    | ok t0' =>
      simp only [hb] at hE
      injection hE with hE'
      subst hE'
      unfold WinBD.extract_bookmarks_body at hb
      by_cases hex : bf.pathExists = false
      · rw [if_pos hex] at hb; cases hb
      · rw [if_neg hex] at hb
        cases hct : bf.content with
        | error e => simp only [hct] at hb; cases hb
        | ok doc =>
          simp only [hct] at hb
          cases h1 : jget doc "roots" with
          | none => simp only [h1] at hb; cases hb
          | some r =>
            simp only [h1] at hb
            cases h2 : jget r "bookmark_bar" with
            | none => simp only [h2] at hb; cases hb
            | some bb =>
              simp only [h2] at hb
              cases h3 : jget bb "children" with
              | none => simp only [h3] at hb; cases hb
              | some ch =>
                simp only [h3] at hb
                cases h4 : normalizeChildren ch with
                | error e => simp only [h4] at hb; cases hb
                | ok tn =>
                  simp only [h4] at hb
                  unfold selectCols at hb
                  split at hb
                  · rename_i hall
                    injection hb with hb'
                    subst hb'
                    dsimp only at h
                    unfold applyConvertCols at h
                    rw [if_pos (show "date_added" ∈ bookmarkCols from by decide)] at h
                    cases hm : mapMExc (convRow WBD.convert_timestamp "date_added" bookmarkCols)
                        (tn.rows.map (reindexRow tn.cols bookmarkCols)) with
                    | error e => simp only [hm] at h; cases h
                    | ok rows1 =>
                      simp only [hm, applyConvertCols] at h
                      injection h with h'
                      obtain ⟨rows0, hm0, hmap⟩ :=
                        bookmarks_conv_commute WBD.convert_timestamp rfl tn.cols tn.rows rows1 hm
                      have hmem : "date_added" ∈ tn.cols := by
                        have hx := (List.all_eq_true.mp hall) "date_added" (by decide)
                        simpa using hx
                      have hwb : WBD.extract_bookmarks_body bf = .ok ⟨bookmarkCols, rows1⟩ := by
                        unfold WBD.extract_bookmarks_body
                        simp only [hct, h1, h2, h3, h4]
                        rw [if_pos hmem]
                        unfold applyConvertCols
                        rw [if_pos hmem, hm0]
                        simp only [applyConvertCols]
                        unfold selectCols
                        rw [if_pos hall]
                        dsimp only
                        rw [hmap]
                      unfold WBD.extract_bookmarks
                      rw [if_neg hex, hwb, ← h']
                  · cases hb

theorem backup_ne (s : String) : s ++ ".backup" ≠ s := by
  intro h
  have h2 := congrArg String.length h
  rw [String.length_append, show (".backup" : String).length = 7 from rfl] at h2
  omega

/-- The merge of two same-schema tables without a browser column:
schemas gain the browser column, rows are the tagged rows of the first
table followed by the tagged rows of the second. -/
theorem combineTagged_spec (A B : Table) (X Y : String)
    (hs : B.cols = A.cols) (hbr : "browser" ∉ A.cols) :
    (combineTagged A X B Y).cols = A.cols ++ ["browser"] ∧
    (combineTagged A X B Y).rows =
      A.rows.map (fun r => r ++ [Value.str X]) ++
        B.rows.map (fun r => r ++ [Value.str Y]) := by
  unfold combineTagged assignCol concatT
  rw [if_neg hbr, if_neg (show "browser" ∉ B.cols from by rw [hs]; exact hbr)]
  dsimp only
  rw [if_pos (by rw [hs])]
  exact ⟨rfl, rfl⟩

/-- Claim C7: for same-schema tables A and B (from the readers, so
without a browser column) and tags X and Y, the merge appends the
browser column and concatenates: |A| + |B| rows, the first |A| rows
being the rows of A in order, each extended with browser = X, and the
remaining rows the rows of B in order, each extended with browser = Y;
with an empty input the result is just the other tagged table. -/
theorem c7_merge_concatenates_tagged_rows (A B : Table) (X Y : String)
    (hs : B.cols = A.cols) (hbr : "browser" ∉ A.cols) :
    (combineTagged A X B Y).cols = A.cols ++ ["browser"] ∧
    (combineTagged A X B Y).rows.length = A.rows.length + B.rows.length ∧
    (∀ i, i < A.rows.length →
      (combineTagged A X B Y).rows[i]? = A.rows[i]?.map (fun r => r ++ [Value.str X])) ∧
    (∀ j, j < B.rows.length →
      (combineTagged A X B Y).rows[A.rows.length + j]? =
        B.rows[j]?.map (fun r => r ++ [Value.str Y])) := by
  obtain ⟨hcols, hrows⟩ := combineTagged_spec A B X Y hs hbr
  refine ⟨hcols, ?_, ?_, ?_⟩
  · rw [hrows, List.length_append, List.length_map, List.length_map]
  · intro i hi
    rw [hrows, List.getElem?_append, if_pos (by rw [List.length_map]; exact hi),
      List.getElem?_map]
  · intro j hj
    rw [hrows, List.getElem?_append_right (by rw [List.length_map]; omega)]
    rw [List.length_map, Nat.add_sub_cancel_left, List.getElem?_map]

/-- Witness for C7 at concrete tables. -/
theorem c7_witness :
    (combineTagged ⟨["url"], [[.str "a"]]⟩ "Chrome"
        ⟨["url"], [[.str "b"], [.str "c"]]⟩ "Edge").cols = ["url"] ++ ["browser"] ∧
    (combineTagged ⟨["url"], [[.str "a"]]⟩ "Chrome"
        ⟨["url"], [[.str "b"], [.str "c"]]⟩ "Edge").rows.length = 1 + 2 ∧
    (∀ i, i < ([[Value.str "a"]] : List (List Value)).length →
      (combineTagged ⟨["url"], [[.str "a"]]⟩ "Chrome"
        ⟨["url"], [[.str "b"], [.str "c"]]⟩ "Edge").rows[i]? =
        ([[Value.str "a"]] : List (List Value))[i]?.map (fun r => r ++ [Value.str "Chrome"])) ∧
    (∀ j, j < ([[Value.str "b"], [Value.str "c"]] : List (List Value)).length →
      (combineTagged ⟨["url"], [[.str "a"]]⟩ "Chrome"
        ⟨["url"], [[.str "b"], [.str "c"]]⟩ "Edge").rows[1 + j]? =
        ([[Value.str "b"], [Value.str "c"]] : List (List Value))[j]?.map
          (fun r => r ++ [Value.str "Edge"])) := by
  have h := c7_merge_concatenates_tagged_rows ⟨["url"], [[.str "a"]]⟩
    ⟨["url"], [[.str "b"], [.str "c"]]⟩ "Chrome" "Edge" (by decide) (by decide)
  exact h

/-- Claim C8: for every existing store path, the reader emits the
backup copy of the store (to the sibling path with the .backup suffix)
before any database connection, and every connection and query targets
the copy, never the original path. -/
theorem c8_copy_before_read_only_backup_queried (st : SqlStore) (browser_path : String)
    (qcols conv : List String) (evs : List Event)
    (hex : st.pathExists = true)
    (hevs : (WBD.extract_history_cookiesT st browser_path qcols conv).2 = evs) :
    (∀ p, Event.connectEv p ∈ evs → p = browser_path ++ ".backup") ∧
    (∀ p, Event.queryEv p ∈ evs → p = browser_path ++ ".backup") ∧
    (∀ p, Event.connectEv p ∈ evs →
      evs.head? = some (Event.copyEv browser_path (browser_path ++ ".backup"))) ∧
    Event.connectEv browser_path ∉ evs ∧
    Event.queryEv browser_path ∉ evs := by
  unfold WBD.extract_history_cookiesT at hevs
  rw [if_neg (by simp [hex])] at hevs
  cases hc : st.copyExc with
  | some e =>
    simp only [hc] at hevs
    subst hevs
    exact ⟨fun p hp => absurd hp (by simp), fun p hp => absurd hp (by simp),
      fun p hp => absurd hp (by simp), by simp, by simp⟩
  | none =>
    cases hcn : st.connectExc with
    | some e =>
      simp only [hc, hcn] at hevs
      subst hevs
      refine ⟨?_, ?_, ?_, ?_, ?_⟩
      · intro p hp
        rcases List.mem_cons.mp hp with h1 | h1
        · cases h1
        · rcases List.mem_cons.mp h1 with h2 | h2
          · injection h2
          · cases h2
      · intro p hp
        rcases List.mem_cons.mp hp with h1 | h1
        · cases h1
        · rcases List.mem_cons.mp h1 with h2 | h2
          · cases h2
          · cases h2
      · intro p _; rfl
      · intro hp
        rcases List.mem_cons.mp hp with h1 | h1
        · cases h1
        · rcases List.mem_cons.mp h1 with h2 | h2
          · injection h2 with h3; exact backup_ne browser_path h3.symm
          · cases h2
      · intro hp
        rcases List.mem_cons.mp hp with h1 | h1
        · cases h1
        · rcases List.mem_cons.mp h1 with h2 | h2
          · cases h2
          · cases h2
    | none =>
      cases hq : read_sql_query qcols st.cursorRows with
      | error e =>
        simp only [hc, hcn, hq] at hevs
        subst hevs
        refine ⟨?_, ?_, ?_, ?_, ?_⟩
        · intro p hp
          rcases List.mem_cons.mp hp with h1 | h1
          · cases h1
          · rcases List.mem_cons.mp h1 with h2 | h2
            · injection h2
            · rcases List.mem_cons.mp h2 with h3 | h3
              · cases h3
              · cases h3
        · intro p hp
          rcases List.mem_cons.mp hp with h1 | h1
          · cases h1
          · rcases List.mem_cons.mp h1 with h2 | h2
            · cases h2
            · rcases List.mem_cons.mp h2 with h3 | h3
              · injection h3
              · cases h3
        · intro p _; rfl
        · intro hp
          rcases List.mem_cons.mp hp with h1 | h1
          · cases h1
          · rcases List.mem_cons.mp h1 with h2 | h2
            · injection h2 with h3; exact backup_ne browser_path h3.symm
            · rcases List.mem_cons.mp h2 with h3 | h3
              · cases h3
              · cases h3
        · intro hp
          rcases List.mem_cons.mp hp with h1 | h1
          · cases h1
          · rcases List.mem_cons.mp h1 with h2 | h2
            · cases h2
            · rcases List.mem_cons.mp h2 with h3 | h3
              · injection h3 with h4; exact backup_ne browser_path h4.symm
              · cases h3
      | ok df =>
        simp only [hc, hcn, hq] at hevs
        subst hevs
        refine ⟨?_, ?_, ?_, ?_, ?_⟩
        · intro p hp
          rcases List.mem_cons.mp hp with h1 | h1
          · cases h1
          · rcases List.mem_cons.mp h1 with h2 | h2
            · injection h2
            · rcases List.mem_cons.mp h2 with h3 | h3
              · cases h3
              · cases h3
        · intro p hp
          rcases List.mem_cons.mp hp with h1 | h1
          · cases h1
          · rcases List.mem_cons.mp h1 with h2 | h2
            · cases h2
            · rcases List.mem_cons.mp h2 with h3 | h3
              · injection h3
              · cases h3
        · intro p _; rfl
        · intro hp
          rcases List.mem_cons.mp hp with h1 | h1
          · cases h1
          · rcases List.mem_cons.mp h1 with h2 | h2
            · injection h2 with h3; exact backup_ne browser_path h3.symm
            · rcases List.mem_cons.mp h2 with h3 | h3
              · cases h3
              · cases h3
        · intro hp
          rcases List.mem_cons.mp hp with h1 | h1
          · cases h1
          · rcases List.mem_cons.mp h1 with h2 | h2
            · cases h2
            · rcases List.mem_cons.mp h2 with h3 | h3
              · injection h3 with h4; exact backup_ne browser_path h4.symm
              · cases h3

/-- Witness for C8 at a concrete store and path. -/
theorem c8_witness :
    (∀ p, Event.connectEv p ∈ [Event.copyEv "H" ("H" ++ ".backup"),
        Event.connectEv ("H" ++ ".backup"), Event.queryEv ("H" ++ ".backup")] →
      p = "H" ++ ".backup") ∧
    (∀ p, Event.queryEv p ∈ [Event.copyEv "H" ("H" ++ ".backup"),
        Event.connectEv ("H" ++ ".backup"), Event.queryEv ("H" ++ ".backup")] →
      p = "H" ++ ".backup") ∧
    (∀ p, Event.connectEv p ∈ [Event.copyEv "H" ("H" ++ ".backup"),
        Event.connectEv ("H" ++ ".backup"), Event.queryEv ("H" ++ ".backup")] →
      [Event.copyEv "H" ("H" ++ ".backup"), Event.connectEv ("H" ++ ".backup"),
        Event.queryEv ("H" ++ ".backup")].head? =
        some (Event.copyEv "H" ("H" ++ ".backup"))) ∧
    Event.connectEv "H" ∉ [Event.copyEv "H" ("H" ++ ".backup"),
      Event.connectEv ("H" ++ ".backup"), Event.queryEv ("H" ++ ".backup")] ∧
    Event.queryEv "H" ∉ [Event.copyEv "H" ("H" ++ ".backup"),
      Event.connectEv ("H" ++ ".backup"), Event.queryEv ("H" ++ ".backup")] :=
  c8_copy_before_read_only_backup_queried ⟨true, none, none, .ok []⟩ "H"
    historyCols timestamp_history _ rfl rfl

/-- Claim C1 (code bug): a zero-byte store file makes the cursor raise
sqlite3.OperationalError (no such table), which pandas.read_sql_query
re-raises as pandas.errors.DatabaseError; `except sqlite3.Error` does
not catch it, so extract_history_cookies raises to its caller instead
of returning the empty table.  A failing copy step (an OSError)
propagates as well. -/
theorem c1_zero_byte_store_raises :
    WBD.extract_history_cookies ⟨true, none, none, .error .sqlite3Error⟩
      "C:\\Users\\analyst\\AppData\\Local\\Google\\Chrome\\User Data\\Default\\History"
      historyCols timestamp_history = .error .pandasDatabaseError ∧
    WBD.extract_history_cookies ⟨true, some .osError, none, .ok []⟩
      "C:\\Users\\analyst\\AppData\\Local\\Google\\Chrome\\User Data\\Default\\History"
      historyCols timestamp_history = .error .osError := ⟨rfl, rfl⟩

/-- Claim C2 (code bug): the end-to-end run does abort on a failed
artifact.  In WindowsBrowserData.py, a missing Bookmarks file degrades
to the empty frame inside the reader, but the module-level date_added
conversion then raises KeyError and kills the run; in WBD.py, a
zero-byte History store raises an uncaught pandas DatabaseError at
module level. -/
theorem c2_run_aborts_on_failed_artifact :
    WinBD.run "C:\\Users\\analyst"
      ⟨⟨false, none, none, .ok []⟩, ⟨false, none, none, .ok []⟩,
        ⟨false, none, none, .ok []⟩, ⟨false, none, none, .ok []⟩,
        ⟨false, .ok (JVal.jobj [])⟩, ⟨false, .ok (JVal.jobj [])⟩⟩ = .error .keyError ∧
    WBD.run "C:\\Users\\analyst"
      ⟨⟨true, none, none, .error .sqlite3Error⟩, ⟨false, none, none, .ok []⟩,
        ⟨false, none, none, .ok []⟩, ⟨false, none, none, .ok []⟩,
        ⟨false, .ok (JVal.jobj [])⟩, ⟨false, .ok (JVal.jobj [])⟩⟩ =
      .error .pandasDatabaseError := ⟨rfl, rfl⟩

/-- Counterexample to claim C3 as stated: reading a missing store
returns pandas.DataFrame(), whose column set is empty, not the expected
history columns. -/
theorem c3_missing_store_column_set_absent :
    WBD.extract_history_cookies ⟨false, none, none, .ok []⟩
      "C:\\Users\\analyst\\AppData\\Local\\Google\\Chrome\\User Data\\Default\\History"
      historyCols timestamp_history = .ok emptyTable ∧
    emptyTable.cols ≠ historyCols := ⟨rfl, by decide⟩

/-- Claim C3 as amended: every table the readers return is a valid
(possibly empty) table, and it carries the full expected column set
exactly on the successful paths; on failure paths it is the no-column
empty frame, so the expected column set is absent there. -/
theorem c3_amended_failure_tables_lack_columns :
    (∀ st p qcols conv t, WBD.extract_history_cookies st p qcols conv = .ok t →
      t.cols = qcols ∨ t = emptyTable) ∧
    (∀ bf t, WBD.extract_bookmarks bf = .ok t →
      t.cols = bookmarkCols ∨ t = emptyTable) :=
  ⟨fun st p qcols conv t h => extract_history_cookies_shape st p qcols conv t h,
    fun bf t h => extract_bookmarks_shape bf t h⟩

/-- Witness for the amended C3 on a successful read. -/
theorem c3_amended_witness :
    (⟨historyCols, [[Value.str "u", Value.str "t", Value.int 2,
        Value.str "2023-05-31 09:46:40"]]⟩ : Table).cols = historyCols ∨
    (⟨historyCols, [[Value.str "u", Value.str "t", Value.int 2,
        Value.str "2023-05-31 09:46:40"]]⟩ : Table) = emptyTable :=
  c3_amended_failure_tables_lack_columns.1
    ⟨true, none, none, .ok [[Value.str "u", Value.str "t", Value.int 2,
      Value.int 13330000000000000]]⟩
    "H" historyCols timestamp_history
    ⟨historyCols, [[Value.str "u", Value.str "t", Value.int 2,
      Value.str "2023-05-31 09:46:40"]]⟩
    rfl

/-- Claim C4 (code bug): convert_timestamp returns a non-integer input
unchanged, but an integer outside the representable datetime range
raises OverflowError, which `except ValueError` does not catch, so the
raw value is not passed through for out-of-range integers. -/
theorem c4_out_of_range_timestamp_raises :
    WBD.convert_timestamp (.int 1000000000000000000000) = .error .overflowError ∧
    WBD.convert_timestamp (.str "not-a-number") = .ok (.str "not-a-number") := ⟨rfl, rfl⟩

/-- Counterexample to claim C5 as stated: on a filesystem where every
profile file is missing, WBD.py completes its run while
WindowsBrowserData.py aborts with a KeyError, so the two scripts are
not behaviorally equivalent. -/
theorem c5_runs_differ_on_missing_bookmarks :
    (∃ R, WBD.run "C:\\Users\\analyst"
      ⟨⟨false, none, none, .ok []⟩, ⟨false, none, none, .ok []⟩,
        ⟨false, none, none, .ok []⟩, ⟨false, none, none, .ok []⟩,
        ⟨false, .ok (JVal.jobj [])⟩, ⟨false, .ok (JVal.jobj [])⟩⟩ = .ok R) ∧
    WinBD.run "C:\\Users\\analyst"
      ⟨⟨false, none, none, .ok []⟩, ⟨false, none, none, .ok []⟩,
        ⟨false, none, none, .ok []⟩, ⟨false, none, none, .ok []⟩,
        ⟨false, .ok (JVal.jobj [])⟩, ⟨false, .ok (JVal.jobj [])⟩⟩ = .error .keyError :=
  ⟨⟨_, rfl⟩, rfl⟩

/-- Claim C5 as amended: the two scripts agree on convert_timestamp and
on extract_history_cookies for every input, and on every bookmarks
input on which the WindowsBrowserData.py pipeline (extraction plus its
module-level date_added conversion) succeeds, WBD.py produces the same
table; but the WBD.py bookmark reader never raises, while the
WindowsBrowserData.py module level raises KeyError whenever its
extraction degrades to the empty frame, so the overall runs are not
equivalent. -/
theorem c5_amended_partial_equivalence :
    (∀ v, WBD.convert_timestamp v = WinBD.convert_timestamp v) ∧
    (∀ st p qcols conv, WBD.extract_history_cookies st p qcols conv =
      WinBD.extract_history_cookies st p qcols conv) ∧
    (∀ bf, ∃ t, WBD.extract_bookmarks bf = .ok t) ∧
    (∀ bf t, WinBD.bookmarksStep bf = .ok t → WBD.extract_bookmarks bf = .ok t) :=
  ⟨fun _ => rfl, fun _ _ _ _ => rfl, extract_bookmarks_total, bookmarksStep_to_wbd⟩

/-- Witness for the amended C5 at a concrete bookmarks document. -/
theorem c5_amended_witness :
    WBD.extract_bookmarks ⟨true, .ok (JVal.jobj [("roots", .jobj [("bookmark_bar",
        .jobj [("children", .jarr [.jobj [("name", .jstr "Site"), ("type", .jstr "url"),
          ("url", .jstr "http://example.com"),
          ("date_added", .jstr "13330000000000000")]])])])])⟩ =
      .ok ⟨["name", "type", "url", "date_added"],
        [[Value.str "Site", Value.str "url", Value.str "http://example.com",
          Value.str "2023-05-31 09:46:40"]]⟩ :=
  c5_amended_partial_equivalence.2.2.2
    ⟨true, .ok (JVal.jobj [("roots", .jobj [("bookmark_bar",
      .jobj [("children", .jarr [.jobj [("name", .jstr "Site"), ("type", .jstr "url"),
        ("url", .jstr "http://example.com"),
        ("date_added", .jstr "13330000000000000")]])])])])⟩
    ⟨["name", "type", "url", "date_added"],
      [[Value.str "Site", Value.str "url", Value.str "http://example.com",
        Value.str "2023-05-31 09:46:40"]]⟩
    rfl

/-- Claim C6: for every microsecond count t whose date is representable,
convert_timestamp yields the calendar string of 1601-01-01T00:00:00 plus
t microseconds, and re-parsing that string recovers t to second
precision (the recovered seconds q bracket t within one second). -/
theorem c6_convert_calendar_roundtrip (t : Int)
    (h1 : 0 ≤ chromiumEpochMicro + t) (h2 : chromiumEpochMicro + t ≤ datetimeMaxMicro) :
    WBD.convert_timestamp (.int t) =
      .ok (.str (formatMicro (chromiumEpochMicro + t).toNat)) ∧
    ∃ q : Int, parseCal (formatMicro (chromiumEpochMicro + t).toNat) = some q ∧
      q * 1000000 ≤ t ∧ t < q * 1000000 + 1000000 := by
  have h1' : (0 : Int) ≤ 50491123200000000 + t := h1
  have h2' : (50491123200000000 : Int) + t ≤ 315537897599999999 := h2
  have hN : (((chromiumEpochMicro + t).toNat : Nat) : Int) = 50491123200000000 + t := by
    rw [Int.toNat_of_nonneg h1]
    rfl
  have htot : (chromiumEpochMicro + t).toNat ≤ 315537897599999999 := by omega
  refine ⟨convert_timestamp_int_ok t h1 h2,
    (((chromiumEpochMicro + t).toNat / 1000000 : Nat) : Int) - 50491123200,
    parse_format_micro _ htot, ?_, ?_⟩
  · omega
  · omega

/-- Witness for C6 at t = 0: the Chromium epoch itself. -/
theorem c6_witness :
    WBD.convert_timestamp (.int 0) = .ok (.str "1601-01-01 00:00:00") ∧
    ∃ q : Int, parseCal "1601-01-01 00:00:00" = some q ∧
      q * 1000000 ≤ 0 ∧ (0 : Int) < q * 1000000 + 1000000 := by
  have h := c6_convert_calendar_roundtrip 0 (by decide) (by decide)
  rw [show formatMicro ((chromiumEpochMicro + 0).toNat) = "1601-01-01 00:00:00" from
    by decide] at h
  exact h

/-- Claim C9: on a bookmarks document in which any segment of the path
roots.bookmark_bar.children is missing, both bookmark readers return
the empty table and neither raises. -/
theorem c9_missing_bookmark_path_yields_empty (bf : BookmarksFile) (doc : JVal)
    (hex : bf.pathExists = true) (hdoc : bf.content = .ok doc)
    (hmiss : chainChildren doc = none) :
    WBD.extract_bookmarks bf = .ok emptyTable ∧
    WinBD.extract_bookmarks bf = .ok emptyTable := by
  cases j1 : jget doc "roots" with
  | none =>
    constructor
    · unfold WBD.extract_bookmarks
      rw [if_neg (by simp [hex]),
        show WBD.extract_bookmarks_body bf = .ok emptyTable from by
          unfold WBD.extract_bookmarks_body; simp only [hdoc, j1]]
    · unfold WinBD.extract_bookmarks
      rw [show WinBD.extract_bookmarks_body bf = .error .keyError from by
        unfold WinBD.extract_bookmarks_body
        rw [if_neg (by simp [hex])]
        simp only [hdoc, j1]]
  | some r =>
    cases j2 : jget r "bookmark_bar" with
    | none =>
      constructor
      · unfold WBD.extract_bookmarks
        rw [if_neg (by simp [hex]),
          show WBD.extract_bookmarks_body bf = .ok emptyTable from by
            unfold WBD.extract_bookmarks_body; simp only [hdoc, j1, j2]]
      · unfold WinBD.extract_bookmarks
        rw [show WinBD.extract_bookmarks_body bf = .error .keyError from by
          unfold WinBD.extract_bookmarks_body
          rw [if_neg (by simp [hex])]
          simp only [hdoc, j1, j2]]
    | some bb =>
      cases j3 : jget bb "children" with
      | none =>
        constructor
        · unfold WBD.extract_bookmarks
          rw [if_neg (by simp [hex]),
            show WBD.extract_bookmarks_body bf = .ok emptyTable from by
              unfold WBD.extract_bookmarks_body; simp only [hdoc, j1, j2, j3]]
        · unfold WinBD.extract_bookmarks
          rw [show WinBD.extract_bookmarks_body bf = .error .keyError from by
            unfold WinBD.extract_bookmarks_body
            rw [if_neg (by simp [hex])]
            simp only [hdoc, j1, j2, j3]]
      | some ch =>
        exfalso
        simp [chainChildren, j1, j2, j3] at hmiss

/-- Witness for C9 at a document with no roots key. -/
theorem c9_witness :
    WBD.extract_bookmarks ⟨true, .ok (JVal.jobj [("version", .jnum 1)])⟩ = .ok emptyTable ∧
    WinBD.extract_bookmarks ⟨true, .ok (JVal.jobj [("version", .jnum 1)])⟩ = .ok emptyTable :=
  c9_missing_bookmark_path_yields_empty ⟨true, .ok (JVal.jobj [("version", .jnum 1)])⟩
    (JVal.jobj [("version", .jnum 1)]) rfl rfl rfl

/-- Claim C10: convert_timestamp is idempotent on every input on which
it returns: a returned value (the original unparseable input, or a
rendered calendar string, which is not integer-parseable) is passed
through unchanged by a second application, in both scripts. -/
theorem c10_convert_idempotent_on_ok (v r : Value)
    (h : WBD.convert_timestamp v = .ok r) :
    WBD.convert_timestamp r = .ok r ∧ WinBD.convert_timestamp r = .ok r :=
  ⟨convert_timestamp_fix v r h,
    by rw [convert_timestamp_eq]; exact convert_timestamp_fix v r h⟩

/-- Witness for C10 at a converted concrete timestamp. -/
theorem c10_witness :
    WBD.convert_timestamp (.str "2023-05-31 09:46:40") = .ok (.str "2023-05-31 09:46:40") ∧
    WinBD.convert_timestamp (.str "2023-05-31 09:46:40") = .ok (.str "2023-05-31 09:46:40") :=
  c10_convert_idempotent_on_ok (.int 13330000000000000) (.str "2023-05-31 09:46:40")
    rfl
